import Mathlib

/-!
Verification of the download-queue / downloader core of
calibre-web-automated-book-downloader, as a shallow embedding in Lean 4.

Each definition mirrors one Python function or data structure of the
repository; the theorems at the end of the file settle the frozen claims
about those functions.
-/

namespace CwaBd

/-! ## Filename sanitisation (`src/utils/book_utils.py`) -/

/-- The constant `KEEP_CHARACTERS = (" ", ".", "_")` from `utils/book_utils.py`. -/
def KEEP_CHARACTERS : List Char := [' ', '.', '_']

/-- Python `str.rstrip()` with no argument: remove trailing whitespace
characters.  (After the filter in `sanitize_filename` the only whitespace
character that can remain is a plain space, so modelling Python's whitespace
class by `Char.isWhitespace` is exact on every input this is applied to.) -/
def py_rstrip (s : String) : String :=
  ((s.toList.reverse.dropWhile Char.isWhitespace).reverse).asString

/-- The function `sanitize_filename` from `utils/book_utils.py`:
`"".join(c for c in filename if c.isalnum() or c in KEEP_CHARACTERS).rstrip()`.
Python's Unicode `str.isalnum` is modelled by `Char.isAlphanum`. -/
def sanitize_filename (filename : String) : String :=
  py_rstrip ((filename.toList.filter
      (fun c => c.isAlphanum || KEEP_CHARACTERS.contains c)).asString)

/-- The sanitiser as the claim describes it: every character that is neither
alphanumeric nor in `KEEP_CHARACTERS` is dropped, and then trailing whitespace
AND trailing kept characters are removed from the right end.  This definition
follows the claim's words, to be compared with `sanitize_filename` above,
which follows the source. -/
def claimed_sanitize_filename (filename : String) : String :=
  (((filename.toList.filter
      (fun c => c.isAlphanum || KEEP_CHARACTERS.contains c)).reverse.dropWhile
      (fun c => c.isWhitespace || KEEP_CHARACTERS.contains c)).reverse).asString

/-! ## Queue data model (`src/models.py`) -/

/-- The enum `QueueStatus` from `models.py`. -/
inductive QueueStatus where
  | queued
  | downloading
  | available
  | error
  | done
  | cancelled
deriving DecidableEq, Repr

/-- The dataclass `QueueItem` from `models.py`.  `added_time` is a `time.time()` float in the
source and is only ever compared, never computed with; it is embedded as an
integer timestamp. -/
structure QueueItem where
  book_id : String
  priority : Int
  added_time : Int
deriving DecidableEq, Repr

/-- The comparison `QueueItem.__lt__` from `models.py`:
lower priority number first, ties broken by earlier `added_time`. -/
def itemLt (a b : QueueItem) : Bool :=
  if a.priority ≠ b.priority then decide (a.priority < b.priority)
  else decide (a.added_time < b.added_time)

/-- One entry of the queue's internal store: the item together with its
current status. -/
structure QueueEntry where
  item : QueueItem
  status : QueueStatus
deriving DecidableEq, Repr

/-- The items of a queue state that are ready (`queued`). -/
def queued_items (q : List QueueEntry) : List QueueItem :=
  (q.filter (fun e => e.status = QueueStatus.queued)).map (fun e => e.item)

/-- Choose the minimum of a nonempty list under the source order
`QueueItem.__lt__` (first occurrence wins on exact ties). -/
def min_item : List QueueItem → Option QueueItem
  | [] => none
  | x :: xs => some (xs.foldl (fun best y => if itemLt y best then y else best) x)

/-- Mark the first queued entry holding `it` as claimed (`downloading`). -/
def reserve : List QueueEntry → QueueItem → List QueueEntry
  | [], _ => []
  | e :: es, it =>
    if e.item = it ∧ e.status = QueueStatus.queued then
      { e with status := QueueStatus.downloading } :: es
    else
      e :: reserve es it

/-- Modelled from the spec: the `BookQueue.get_next` operation (the queue class
itself is not under `src/`; only its callers and the item order
`QueueItem.__lt__` are).  Spec 4.1: "Atomically selects the ready (`queued`)
item with lowest `priority`, breaking ties by earliest `enqueued_at`;
transitions it to a reserved state so no two workers can claim the same item;
returns `None` if no ready item exists."  Selection uses the source order
`itemLt`. -/
def get_next (q : List QueueEntry) : Option QueueItem × List QueueEntry :=
  match min_item (queued_items q) with
  | none => (none, q)
  | some it => (some it, reserve q it)

/-- Sort key of an item: the lexicographic pair (priority, added_time). -/
def sortKey (it : QueueItem) : Int ×ₗ Int :=
  toLex (it.priority, it.added_time)

theorem itemLt_iff_sortKey (a b : QueueItem) :
    itemLt a b = true ↔ sortKey a < sortKey b := by
  unfold itemLt sortKey
  rcases eq_or_ne a.priority b.priority with h | h
  · simp [h, Prod.Lex.lt_iff]
  · simp [h, Prod.Lex.lt_iff]

theorem min_item_none (l : List QueueItem) : min_item l = none ↔ l = [] := by
  cases l <;> simp [min_item]

/-- The running minimum of the selection fold is a member of the scanned
items and is a lower bound for all of them. -/
theorem foldl_min_spec (xs : List QueueItem) : ∀ x : QueueItem,
    (xs.foldl (fun best y => if itemLt y best then y else best) x) ∈ x :: xs ∧
    sortKey (xs.foldl (fun best y => if itemLt y best then y else best) x) ≤
      sortKey x ∧
    ∀ y ∈ xs,
      sortKey (xs.foldl (fun best y => if itemLt y best then y else best) x) ≤
        sortKey y := by
  induction xs with
  | nil => intro x; simp
  | cons y ys ih =>
    intro x
    simp only [List.foldl_cons]
    have hstep : (if itemLt y x then y else x) = y ∨
        (if itemLt y x then y else x) = x := by
      split <;> simp
    have hlex : sortKey (if itemLt y x then y else x) ≤ sortKey x := by
      by_cases hlt : itemLt y x
      · simpa [hlt] using le_of_lt ((itemLt_iff_sortKey y x).mp hlt)
      · simp [hlt]
    have hley : sortKey (if itemLt y x then y else x) ≤ sortKey y := by
      by_cases hlt : itemLt y x
      · simp [hlt]
      · have : ¬ sortKey y < sortKey x := fun hk =>
          hlt ((itemLt_iff_sortKey y x).mpr hk)
        simpa [hlt] using le_of_not_lt this
    obtain ⟨hmem, hbound, hall⟩ := ih (if itemLt y x then y else x)
    refine ⟨?_, ?_, ?_⟩
    · rcases List.mem_cons.mp hmem with hm | hm
      · rcases hstep with hs | hs <;> rw [hs] at hm ⊢ <;> simp [hm]
      · simp [hm]
    · simpa using le_trans hbound hlex
    · intro z hz
      rcases List.mem_cons.mp hz with hz' | hz'
      · subst hz'; simpa using le_trans hbound hley
      · simpa using hall z hz'

theorem min_item_spec (l : List QueueItem) (it : QueueItem)
    (h : min_item l = some it) : it ∈ l ∧ ∀ y ∈ l, sortKey it ≤ sortKey y := by
  rcases l with _ | ⟨x, xs⟩
  · simp [min_item] at h
  · simp only [min_item, Option.some.injEq] at h
    subst h
    obtain ⟨hmem, hbound, hall⟩ := foldl_min_spec xs x
    refine ⟨hmem, ?_⟩
    intro y hy
    rcases List.mem_cons.mp hy with hy' | hy'
    · subst hy'; exact hbound
    · exact hall y hy'

theorem get_next_none_iff (q : List QueueEntry) :
    (get_next q).1 = none ↔ queued_items q = [] := by
  unfold get_next
  rcases h : min_item (queued_items q) with _ | it
  · simpa using (min_item_none _).mp h
  · simp only [h]
    constructor
    · intro hc; cases hc
    · intro he; rw [he] at h; simp [min_item] at h

/-- Example queue used to witness claim C1. -/
def exItemA : QueueItem := ⟨"A", 5, 0⟩

def exItemB : QueueItem := ⟨"B", 1, 3⟩

def exItemC : QueueItem := ⟨"C", 1, 7⟩

def exQueue : List QueueEntry :=
  [⟨exItemA, QueueStatus.queued⟩, ⟨exItemC, QueueStatus.queued⟩,
   ⟨exItemB, QueueStatus.queued⟩, ⟨⟨"D", 0, 0⟩, QueueStatus.downloading⟩]

end CwaBd

namespace CwaBd

/-- C1: whenever at least one item is `queued`, `get_next` returns a queued
item that is minimal for the source order `QueueItem.__lt__` (lowest priority
number, ties broken by earliest enqueue time); it returns `none` exactly when
no queued item exists; and the item order used by the queue is the
lexicographic order on (priority, enqueued time). -/
theorem claim_C1_get_next_order (q : List QueueEntry) :
    ((get_next q).1 = none ↔ queued_items q = []) ∧
    (∀ it, (get_next q).1 = some it →
      it ∈ queued_items q ∧ ∀ y ∈ queued_items q, itemLt y it = false) ∧
    (∀ a b : QueueItem, itemLt a b = true ↔
      (a.priority < b.priority ∨
        (a.priority = b.priority ∧ a.added_time < b.added_time))) := by
  refine ⟨get_next_none_iff q, ?_, ?_⟩
  · intro it hit
    have hmin : min_item (queued_items q) = some it := by
      unfold get_next at hit
      rcases h : min_item (queued_items q) with _ | z
      · rw [h] at hit; simp at hit
      · rw [h] at hit
        have hz : z = it := by simpa using hit
        rw [hz]
    obtain ⟨hmem, hle⟩ := min_item_spec _ _ hmin
    refine ⟨hmem, ?_⟩
    intro y hy
    have := hle y hy
    by_contra hlt
    rw [Bool.not_eq_false] at hlt
    exact absurd ((itemLt_iff_sortKey y it).mp hlt) (not_lt_of_le this)
  · intro a b
    rw [itemLt_iff_sortKey]
    unfold sortKey
    simp [Prod.Lex.lt_iff]

/-- Witness for C1: on a concrete queue, `get_next` picks the priority-1 item
with the earliest enqueue time, and it is minimal among the queued items. -/
theorem claim_C1_get_next_order_witness :
    (get_next exQueue).1 = some exItemB ∧ exItemB ∈ queued_items exQueue ∧
      ∀ y ∈ queued_items exQueue, itemLt y exItemB = false := by
  have h := (claim_C1_get_next_order exQueue).2.1 exItemB (by decide)
  exact ⟨by decide, h.1, h.2⟩

end CwaBd

namespace CwaBd

theorem toList_asString (l : List Char) : (List.asString l).toList = l := rfl

/-- C10 (counterexample): on the input `"a."` the source sanitiser keeps the
trailing dot, whereas the claim (which says trailing kept characters are also
removed from the right end) would strip it; the two readings disagree. -/
theorem claim_C10_counterexample :
    sanitize_filename "a." = "a." ∧ claimed_sanitize_filename "a." = "a" ∧
      sanitize_filename "a." ≠ claimed_sanitize_filename "a." := by
  refine ⟨?_, ?_, ?_⟩ <;> decide

/-- C10 (amended): every character of `sanitize_filename s` is alphanumeric or
one of the kept characters (space, dot, underscore) — every other input
character is dropped; only trailing whitespace is removed from the right end
(trailing dots and underscores remain); in particular the result never
contains a path separator. -/
theorem claim_C10_sanitize_filename_amended (s : String) :
    (∀ c ∈ (sanitize_filename s).toList,
        c.isAlphanum = true ∨ c ∈ KEEP_CHARACTERS) ∧
    (∀ c, (sanitize_filename s).toList.getLast? = some c →
        c.isWhitespace = false) ∧
    '/' ∉ (sanitize_filename s).toList ∧
    '\\' ∉ (sanitize_filename s).toList := by
  have hrep : (sanitize_filename s).toList =
      ((s.toList.filter
          (fun c => c.isAlphanum || KEEP_CHARACTERS.contains c)).reverse.dropWhile
        Char.isWhitespace).reverse := rfl
  have hmem : ∀ c ∈ (sanitize_filename s).toList,
      (c.isAlphanum || KEEP_CHARACTERS.contains c) = true := by
    intro c hc
    rw [hrep, List.mem_reverse] at hc
    have hsub := (List.dropWhile_sublist Char.isWhitespace
      (l := (s.toList.filter
        (fun c => c.isAlphanum || KEEP_CHARACTERS.contains c)).reverse)).subset hc
    rw [List.mem_reverse] at hsub
    have hp := List.of_mem_filter hsub
    simpa using hp
  refine ⟨?_, ?_, ?_, ?_⟩
  · intro c hc
    have h := hmem c hc
    rw [Bool.or_eq_true] at h
    rcases h with h | h
    · exact Or.inl h
    · refine Or.inr ?_
      have : c ∈ KEEP_CHARACTERS := by
        simpa using h
      exact this
  · intro c hc
    rw [hrep, List.getLast?_reverse] at hc
    have h := List.head?_dropWhile_not Char.isWhitespace
      ((s.toList.filter
        (fun c => c.isAlphanum || KEEP_CHARACTERS.contains c)).reverse)
    rw [hc] at h
    exact h
  · intro hc
    exact absurd (hmem _ hc) (by decide)
  · intro hc
    exact absurd (hmem _ hc) (by decide)

/-- Witness for the amended C10 on a concrete filename with unsafe
characters: colon, slash and question mark are dropped and the trailing space
is stripped. -/
theorem claim_C10_amended_witness :
    sanitize_filename "My Book: Vol/1? " = "My Book Vol1" ∧
      '/' ∉ (sanitize_filename "My Book: Vol/1? ").toList := by
  have h := claim_C10_sanitize_filename_amended "My Book: Vol/1? "
  exact ⟨by decide, h.2.2.1⟩

end CwaBd

namespace CwaBd

/-! ## Page fetching with retries (`src/services/downloader.py`,
`html_get_page`) -/

/-- The outcome of one HTTP attempt, as seen by the `except` handler of
`html_get_page`: a successful body, an exception raised by
`raise_for_status()` with the response's status code available, or an
exception with no usable response (connection error, or a bypasser
failure). -/
inductive FetchOutcome where
  | success (text : String)
  | httpError (status : Nat)
  | netError
deriving DecidableEq, Repr

/-- The guard `response is not None and response.status_code`: the status code the
handler can observe for an attempt outcome. -/
def statusOf : FetchOutcome → Option Nat
  | FetchOutcome.httpError s => some s
  | _ => none

/-- The observable trace of one `html_get_page` call tree: the value it
returns, every `time.sleep` it performs (in order, in seconds), and the
number of HTTP attempts it makes (direct requests or bypasser requests). -/
structure FetchRun where
  result : String
  sleeps : List Nat
  attempts : Nat
deriving DecidableEq, Repr

/-- The configuration constants read by `html_get_page`:
`MAX_RETRY`, `DEFAULT_SLEEP` (from `config/settings.py`) and
`USE_CF_BYPASS`. -/
structure NetConfig where
  maxRetry : Nat
  defaultSleep : Nat
  useCfBypass : Bool
deriving Repr

/-- The function `html_get_page(url, retry, use_bypasser)` from `services/downloader.py`.
The network is an oracle: `env t` is the outcome of the `requests.get`
attempt made at step `t`, and `benv t` the outcome of the
`get_bypassed_page` attempt made at step `t`; `t` increases by one per
attempt.  Control flow mirrors the source exactly: on the bypasser path a
success returns the page; any exception with `retry == 0` returns `""`;
on the plain path a 404 returns `""` at once, a 403 recurses with
`use_bypasser=True` and no sleep, and any other failure sleeps
`DEFAULT_SLEEP * (MAX_RETRY - retry + 1)` seconds and recurses with the same
bypasser flag.  The `time.sleep(1)` after a plain-path success is recorded
as a sleep of 1. -/
def html_get_page (cfg : NetConfig) (env benv : Nat → FetchOutcome) :
    Nat → Nat → Bool → FetchRun
  | t, 0, useBy =>
    if useBy && cfg.useCfBypass then
      match benv t with
      | FetchOutcome.success s => ⟨s, [], 1⟩
      | _ => ⟨"", [], 1⟩
    else
      match env t with
      | FetchOutcome.success s => ⟨s, [1], 1⟩
      | _ => ⟨"", [], 1⟩
  | t, r + 1, useBy =>
    if useBy && cfg.useCfBypass then
      match benv t with
      | FetchOutcome.success s => ⟨s, [], 1⟩
      | _ =>
        let w := cfg.defaultSleep * (cfg.maxRetry - (r + 1) + 1)
        let rest := html_get_page cfg env benv (t + 1) r useBy
        ⟨rest.result, w :: rest.sleeps, rest.attempts + 1⟩
    else
      match env t with
      | FetchOutcome.success s => ⟨s, [1], 1⟩
      | out =>
        if statusOf out = some 404 then ⟨"", [], 1⟩
        else if statusOf out = some 403 then
          let rest := html_get_page cfg env benv (t + 1) r true
          ⟨rest.result, rest.sleeps, rest.attempts + 1⟩
        else
          let w := cfg.defaultSleep * (cfg.maxRetry - (r + 1) + 1)
          let rest := html_get_page cfg env benv (t + 1) r useBy
          ⟨rest.result, w :: rest.sleeps, rest.attempts + 1⟩

/-- A generic transient failure: an exception that is neither a 404 nor a
403 response. -/
def isTransient : FetchOutcome → Bool
  | FetchOutcome.netError => true
  | FetchOutcome.httpError s => decide (s ≠ 404) && decide (s ≠ 403)
  | FetchOutcome.success _ => false

end CwaBd

namespace CwaBd

/-- C2: a 404 response on the plain (non-bypassed) fetch path makes
`html_get_page` return `""` at once — a single attempt, no backoff sleep and
no further retry, no matter how many retries remain. -/
theorem claim_C2_404_no_retry (cfg : NetConfig) (env benv : Nat → FetchOutcome)
    (t retry : Nat) (useBy : Bool)
    (hpath : useBy = false ∨ cfg.useCfBypass = false)
    (h404 : env t = FetchOutcome.httpError 404) :
    html_get_page cfg env benv t retry useBy = ⟨"", [], 1⟩ := by
  have hb : (useBy && cfg.useCfBypass) = false := by
    rcases hpath with h | h <;> simp [h]
  cases retry with
  | zero => simp [html_get_page, hb, h404]
  | succ r => simp [html_get_page, hb, h404, statusOf]

def exNetCfg : NetConfig := ⟨3, 5, false⟩

def exEnv404 : Nat → FetchOutcome := fun _ => FetchOutcome.httpError 404

def exEnvFail : Nat → FetchOutcome := fun _ => FetchOutcome.netError

/-- Witness for C2: with 3 retries remaining, a 404 still yields one attempt,
an empty result and no sleeps. -/
theorem claim_C2_404_no_retry_witness :
    html_get_page exNetCfg exEnv404 exEnvFail 0 3 false = ⟨"", [], 1⟩ :=
  claim_C2_404_no_retry exNetCfg exEnv404 exEnvFail 0 3 false (Or.inl rfl) rfl

/-- Under persistent transient failures, a plain-path call with `r ≤ MAX_RETRY`
retries remaining fails through the whole ladder: `r + 1` attempts, empty
result, and one backoff sleep of `DEFAULT_SLEEP * (MAX_RETRY - r + 1 + i)` per
retry `i`. -/
theorem html_get_page_transient_all_fail (cfg : NetConfig)
    (env benv : Nat → FetchOutcome)
    (htr : ∀ s, isTransient (env s) = true) :
    ∀ r t, r ≤ cfg.maxRetry →
      html_get_page cfg env benv t r false =
        ⟨"", (List.range r).map
            (fun i => cfg.defaultSleep * (cfg.maxRetry - r + 1 + i)), r + 1⟩ := by
  intro r
  induction r with
  | zero =>
    intro t _
    rcases h : env t with s | s | _
    · have hs := htr t; rw [h] at hs; simp [isTransient] at hs
    · simp [html_get_page, h]
    · simp [html_get_page, h]
  | succ r ih =>
    intro t hr
    have hmap : (List.range (r + 1)).map
        (fun i => cfg.defaultSleep * (cfg.maxRetry - (r + 1) + 1 + i)) =
        (cfg.defaultSleep * (cfg.maxRetry - (r + 1) + 1)) ::
          (List.range r).map
            (fun i => cfg.defaultSleep * (cfg.maxRetry - r + 1 + i)) := by
      rw [List.range_succ_eq_map, List.map_cons, List.map_map]
      refine congrArg₂ List.cons (by norm_num) ?_
      have hfun : ((fun i => cfg.defaultSleep * (cfg.maxRetry - (r + 1) + 1 + i))
            ∘ Nat.succ) =
          (fun i => cfg.defaultSleep * (cfg.maxRetry - r + 1 + i)) := by
        funext i
        simp only [Function.comp_apply]
        congr 1
        omega
      rw [hfun]
    have hrec := ih (t + 1) (Nat.le_of_succ_le hr)
    rcases h : env t with s | s | _
    · have hs := htr t; rw [h] at hs; simp [isTransient] at hs
    · have hs := htr t; rw [h] at hs
      simp only [isTransient, Bool.and_eq_true, decide_eq_true_eq] at hs
      simp [html_get_page, h, statusOf, hs.1, hs.2, hrec, hmap]
    · simp [html_get_page, h, statusOf, hrec, hmap]

/-- C3: when every attempt fails with a generic transient error, the default
call (`retry = MAX_RETRY`) returns `""` after exactly `MAX_RETRY` retries
(`MAX_RETRY + 1` attempts), the sleep before the k-th retry (1-based) is
`DEFAULT_SLEEP * k`, and the sleeps strictly increase. -/
theorem claim_C3_backoff (cfg : NetConfig) (env benv : Nat → FetchOutcome)
    (t : Nat) (htr : ∀ s, isTransient (env s) = true)
    (hD : 0 < cfg.defaultSleep) :
    (html_get_page cfg env benv t cfg.maxRetry false).result = "" ∧
    (html_get_page cfg env benv t cfg.maxRetry false).attempts =
      cfg.maxRetry + 1 ∧
    (html_get_page cfg env benv t cfg.maxRetry false).sleeps =
      (List.range cfg.maxRetry).map (fun k => cfg.defaultSleep * (k + 1)) ∧
    (html_get_page cfg env benv t cfg.maxRetry false).sleeps.Pairwise
      (· < ·) := by
  have h := html_get_page_transient_all_fail cfg env benv htr cfg.maxRetry t
    le_rfl
  have hfun : (fun i => cfg.defaultSleep * (cfg.maxRetry - cfg.maxRetry + 1 + i))
      = (fun k => cfg.defaultSleep * (k + 1)) := by
    funext i
    congr 1
    omega
  rw [h, hfun]
  refine ⟨rfl, rfl, rfl, ?_⟩
  rw [List.pairwise_map]
  exact (List.pairwise_lt_range cfg.maxRetry).imp
    (fun hij => by
      exact mul_lt_mul_of_pos_left (by omega) hD)

/-- Witness for C3: with `MAX_RETRY = 3`, `DEFAULT_SLEEP = 5` and every
attempt a transient failure, the run sleeps 5, 10, 15 seconds and makes four
attempts. -/
theorem claim_C3_backoff_witness :
    (html_get_page exNetCfg exEnvFail exEnvFail 0 3 false).sleeps =
      [5, 10, 15] ∧
    (html_get_page exNetCfg exEnvFail exEnvFail 0 3 false).attempts = 4 := by
  have h := claim_C3_backoff exNetCfg exEnvFail exEnvFail 0 (fun _ => rfl)
    (by decide)
  exact ⟨h.2.2.1.trans (by decide), h.2.1⟩

end CwaBd

namespace CwaBd

/-- C4: a 403 on the plain path with at least one retry remaining recurses
exactly once onto the bypasser path — same ladder, one fewer retry, no extra
sleep, one more attempt counted — and a run already on the bypasser path
never consults the plain fetch again: its trace does not depend on `env`. -/
theorem claim_C4_403_bypass (cfg : NetConfig)
    (env env2 benv : Nat → FetchOutcome) (t r : Nat)
    (hcf : cfg.useCfBypass = true)
    (h403 : env t = FetchOutcome.httpError 403) :
    (html_get_page cfg env benv t (r + 1) false =
      ⟨(html_get_page cfg env benv (t + 1) r true).result,
       (html_get_page cfg env benv (t + 1) r true).sleeps,
       (html_get_page cfg env benv (t + 1) r true).attempts + 1⟩) ∧
    (∀ t2 r2, html_get_page cfg env benv t2 r2 true =
       html_get_page cfg env2 benv t2 r2 true) := by
  constructor
  · simp [html_get_page, h403, statusOf]
  · intro t2 r2
    induction r2 generalizing t2 with
    | zero => cases hb : benv t2 <;> simp [html_get_page, hcf, hb]
    | succ n ih => cases hb : benv t2 <;> simp [html_get_page, hcf, hb, ih]

def exCfgByp : NetConfig := ⟨3, 5, true⟩

def exEnv403 : Nat → FetchOutcome := fun _ => FetchOutcome.httpError 403

def exEnvAlt : Nat → FetchOutcome := fun _ => FetchOutcome.netError

def exBenvOk : Nat → FetchOutcome := fun t =>
  if t = 0 then FetchOutcome.netError else FetchOutcome.success "page"

/-- Witness for C4 on concrete inputs: the 403 call equals the bypasser-path
continuation, and the bypasser-path run is unchanged when the plain fetch
oracle is swapped out. -/
theorem claim_C4_403_bypass_witness :
    (html_get_page exCfgByp exEnv403 exBenvOk 0 3 false =
      ⟨(html_get_page exCfgByp exEnv403 exBenvOk 1 2 true).result,
       (html_get_page exCfgByp exEnv403 exBenvOk 1 2 true).sleeps,
       (html_get_page exCfgByp exEnv403 exBenvOk 1 2 true).attempts + 1⟩) ∧
    html_get_page exCfgByp exEnv403 exBenvOk 5 2 true =
      html_get_page exCfgByp exEnvAlt exBenvOk 5 2 true := by
  have h := claim_C4_403_bypass exCfgByp exEnv403 exEnvAlt exBenvOk 0 2 rfl rfl
  exact ⟨h.1, h.2 5 2⟩

end CwaBd

namespace CwaBd

/-! ## Search (`src/app/views.py`, `src/services/book_manager.py`) -/

/-- The fields of the `BookInfo` dataclass (`models.py`) that the operations
verified here read. -/
structure BookInfo where
  id : String
  title : String
  format : String
deriving DecidableEq, Repr

/-- The dataclass `SearchFilters` from `models.py`, as constructed by `api_search_view`:
every list field is `request.args.getlist(...)` (an empty list when the
parameter is absent, never `None`), and `sort` is `request.args.get('sort')`
(`None` when absent). -/
structure SearchFilters where
  isbn : List String
  authors : List String
  title : List String
  lang : List String
  sort : Option String
  content : List String
  format : List String
deriving DecidableEq, Repr

/-- Python `any(vars(filters).values())`: a list field is truthy iff
nonempty; the `sort` string is truthy iff present and nonempty. -/
def filters_any (f : SearchFilters) : Bool :=
  decide (f.isbn ≠ []) || decide (f.authors ≠ []) || decide (f.title ≠ []) ||
  decide (f.lang ≠ []) ||
  (match f.sort with | some s => decide (s ≠ "") | none => false) ||
  decide (f.content ≠ []) || decide (f.format ≠ [])

/-- The method `BookManager.get_books_by_query` (`services/book_manager.py`): builds the
search URL, fetches it — one network request — and parses the result table.
URL construction (`build_query_url`) and the BeautifulSoup parsing inside
`search_books_by_url` are excluded collaborators passed in as oracles; the
second component counts network fetches. -/
def get_books_by_query
    (build_query_url : String → SearchFilters → String)
    (fetch : String → String) (parse : String → List BookInfo)
    (query : String) (f : SearchFilters) : List BookInfo × Nat :=
  (parse (fetch (build_query_url query f)), 1)

/-- The view handler `api_search_view` (`app/views.py`):
`if not query and not any(vars(filters).values()): return jsonify([])`,
otherwise delegate to the backend search. -/
def api_search_view
    (search_impl : String → SearchFilters → List BookInfo × Nat)
    (query : String) (f : SearchFilters) : List BookInfo × Nat :=
  if query = "" && !(filters_any f) then ([], 0)
  else search_impl query f

/-- C5: an empty query together with all-empty filters short-circuits the
search to an empty result with zero network fetches — the archive-manager
search (which would fetch once) is never invoked. -/
theorem claim_C5_empty_search_short_circuit
    (build_query_url : String → SearchFilters → String)
    (fetch : String → String) (parse : String → List BookInfo)
    (query : String) (f : SearchFilters)
    (hq : query = "") (hf : filters_any f = false) :
    api_search_view (get_books_by_query build_query_url fetch parse) query f =
      ([], 0) := by
  subst hq
  simp [api_search_view, hf]

def exEmptyFilters : SearchFilters := ⟨[], [], [], [], none, [], []⟩

/-- Witness for C5 with concrete oracles and the all-empty filter record. -/
theorem claim_C5_empty_search_short_circuit_witness :
    api_search_view
      (get_books_by_query (fun _ _ => "url") (fun _ => "html") (fun _ => []))
      "" exEmptyFilters = ([], 0) :=
  claim_C5_empty_search_short_circuit _ _ _ "" exEmptyFilters rfl rfl

end CwaBd

namespace CwaBd

/-! ## Download lifecycle (`src/services/book_service.py`: `down`,
`_process_single_download`) -/

/-- Which of the three files a download touches exist: the scratch file
`TMP_DIR/book_name`, the staging file `INGEST_DIR/{book_id}.crdownload`
and the final `INGEST_DIR/book_name`. -/
structure FsState where
  tmp : Bool
  intermediate : Bool
  final : Bool
deriving DecidableEq, Repr

/-- Configuration read by `down`: `USE_BOOK_TITLE`. -/
structure DlConfig where
  useBookTitle : Bool
deriving DecidableEq, Repr

/-- The file name `down` computes:
`(sanitize_filename(title) if USE_BOOK_TITLE else book_id) + "." + format`
(the source's `_sanitize_filename` resolves to
`utils.book_utils.sanitize_filename`). -/
def book_name (cfg : DlConfig) (info : BookInfo) : String :=
  (if cfg.useBookTitle then sanitize_filename info.title else info.id) ++
    "." ++ info.format

/-- The function `down(book_id, cancel_flag)` from `services/book_service.py`.  `cancel k`
is the value `cancel_flag.is_set()` observed at the k-th check of the
function (0: before starting, 1: before the book-manager call, 2: after the
download, 3: before post-processing, 4: before the final rename).  `success`
is the result of `book_manager.download_book`, which writes the scratch file
exactly when it returns `True` (the stream is buffered in memory and written
out only on completion, so a cancelled or failed stream leaves no scratch
file).  `CUSTOM_SCRIPT` post-processing and logging have no effect on the
modelled state and are elided. -/
def down (cfg : DlConfig) (info : BookInfo) (cancel : Nat → Bool)
    (success : Bool) : Option String × FsState :=
  if cancel 0 then (none, ⟨false, false, false⟩)
  else if cancel 1 then (none, ⟨false, false, false⟩)
  else
    let fs1 : FsState := ⟨success, false, false⟩
    if cancel 2 then (none, ⟨false, false, false⟩)
    else if success = false then (none, fs1)
    else if cancel 3 then (none, ⟨false, fs1.intermediate, fs1.final⟩)
    else if fs1.tmp then
      let fs2 : FsState := ⟨false, true, false⟩
      if cancel 4 then (none, { fs2 with intermediate := false })
      else
        (some (book_name cfg info),
         { fs2 with intermediate := false, final := true })
    else (some (book_name cfg info), fs1)

/-- The worker body `_process_single_download(book_id, cancel_flag)` from
`services/book_service.py`: run `down`, then re-check the token (`cancel 5`);
a set token ends in `cancelled`, otherwise a returned path is recorded and
the status becomes `available`, and a missing path becomes `error` with no
path recorded. -/
def process_single_download (cfg : DlConfig) (info : BookInfo)
    (cancel : Nat → Bool) (success : Bool) :
    QueueStatus × Option String × FsState :=
  let r := down cfg info cancel success
  if cancel 5 then (QueueStatus.cancelled, none, r.2)
  else
    match r.1 with
    | some p => (QueueStatus.available, some p, r.2)
    | none => (QueueStatus.error, none, r.2)

/-- C6: if the (monotone) cancel token is signalled at any observation point
up to the worker's final check, the item ends `cancelled` — never `available`
or `error` — and neither the partial scratch file nor the intermediate
`.crdownload` staging file remains. -/
theorem claim_C6_cancel_cleanup (cfg : DlConfig) (info : BookInfo)
    (cancel : Nat → Bool) (success : Bool)
    (hmono : ∀ i j, i ≤ j → cancel i = true → cancel j = true)
    (hsig : ∃ i, i ≤ 5 ∧ cancel i = true) :
    (process_single_download cfg info cancel success).1 =
      QueueStatus.cancelled ∧
    (process_single_download cfg info cancel success).2.2.tmp = false ∧
    (process_single_download cfg info cancel success).2.2.intermediate =
      false := by
  obtain ⟨i, hi, hci⟩ := hsig
  have h5 : cancel 5 = true := hmono i 5 hi hci
  unfold process_single_download down
  cases h0 : cancel 0 <;> cases h1 : cancel 1 <;> cases h2 : cancel 2 <;>
    cases h3 : cancel 3 <;> cases h4 : cancel 4 <;> cases success <;>
      simp [h0, h1, h2, h3, h4, h5]

/-- Witness for C6: token set from the start, download would have
succeeded. -/
theorem claim_C6_cancel_cleanup_witness :
    (process_single_download ⟨true⟩ ⟨"id1", "Title", "epub"⟩
        (fun _ => true) true).1 = QueueStatus.cancelled ∧
    (process_single_download ⟨true⟩ ⟨"id1", "Title", "epub"⟩
        (fun _ => true) true).2.2.tmp = false ∧
    (process_single_download ⟨true⟩ ⟨"id1", "Title", "epub"⟩
        (fun _ => true) true).2.2.intermediate = false :=
  claim_C6_cancel_cleanup ⟨true⟩ ⟨"id1", "Title", "epub"⟩ (fun _ => true) true
    (fun _ _ _ h => h) ⟨0, by decide, rfl⟩

/-- C7: with no cancellation, a successful download ends `available`, records
the deterministic name built from the (sanitised) title or the raw id plus
the format extension, and leaves exactly the final file in the ingest
directory — no `.crdownload` staging artifact and no scratch file; a failed
download ends `error` with no path recorded and no residual file. -/
theorem claim_C7_success_handoff (cfg : DlConfig) (info : BookInfo)
    (cancel : Nat → Bool) (hc : ∀ i, cancel i = false) :
    process_single_download cfg info cancel true =
      (QueueStatus.available,
       some ((if cfg.useBookTitle then sanitize_filename info.title
              else info.id) ++ "." ++ info.format),
       ⟨false, false, true⟩) ∧
    process_single_download cfg info cancel false =
      (QueueStatus.error, none, ⟨false, false, false⟩) := by
  unfold process_single_download down
  simp [hc, book_name]

/-- Witness for C7: title-based naming sanitises the title and appends the
format extension. -/
theorem claim_C7_success_handoff_witness :
    process_single_download ⟨true⟩ ⟨"md5x", "My: Book?", "epub"⟩
        (fun _ => false) true =
      (QueueStatus.available, some "My Book.epub", ⟨false, false, true⟩) := by
  have h := claim_C7_success_handoff ⟨true⟩ ⟨"md5x", "My: Book?", "epub"⟩
    (fun _ => false) (fun _ => rfl)
  exact h.1.trans (by decide)

end CwaBd

namespace CwaBd

/-! ## Streaming binary fetch (`src/services/downloader.py`,
`download_url`) -/

/-- A streamed `requests.get` response: whether `raise_for_status()` passes,
the `content-length` header (0 when absent, the source's fallback), the
`content-type` header (`""` when absent), and the byte counts of the chunks
`iter_content` yields. -/
structure HttpResponse where
  ok : Bool
  contentLength : Nat
  contentType : String
  chunks : List Nat
deriving Repr

/-- The expected total size used by `download_url`: the `size` argument
(a string such as `"3.5 MB"`, whose float parse is abstracted to its parsed
megabyte value) scaled to bytes, falling back to the `content-length`
header when the parse fails. -/
def total_size (sizeMB : Option ℚ) (resp : HttpResponse) : ℚ :=
  match sizeMB with
  | some s => s * 1024 * 1024
  | none => (resp.contentLength : ℚ)

/-- The chunk loop of `download_url`: write each chunk to the buffer, then
poll the cancel flag; a set flag returns `None` and the buffer is discarded.
`cancelAt k` is `cancel_flag.is_set()` observed after writing chunk `k`,
`acc` is `buffer.tell()`.  Progress-bar updates and the progress callback do
not affect the returned value and are elided. -/
def stream_chunks (cancelAt : Nat → Bool) :
    List Nat → Nat → Nat → Option Nat
  | [], _, acc => some acc
  | c :: cs, k, acc =>
    let acc2 := acc + c
    if cancelAt k then none else stream_chunks cancelAt cs (k + 1) acc2

/-- Python `str.startswith`, evaluated on the character lists. -/
def py_startswith (s p : String) : Bool :=
  List.isPrefixOf p.toList s.toList

/-- The function `download_url(link, size, progress_callback, cancel_flag)` from
`services/downloader.py`, with the returned buffer represented by its byte
count.  A failing `raise_for_status` raises `RequestException`, which is
caught and returns `None`.  After a complete stream, a byte count with
`buffer.tell() * 0.1 < total_size * 0.9` whose content-type starts with
`text/html` is treated as a disguised failure page and returns `None`. -/
def download_url (resp : HttpResponse) (sizeMB : Option ℚ)
    (cancelAt : Nat → Bool) : Option Nat :=
  if resp.ok = false then none
  else
    match stream_chunks cancelAt resp.chunks 0 0 with
    | none => none
    | some received =>
      if (received : ℚ) * (1 / 10) < total_size sizeMB resp * (9 / 10) then
        if py_startswith resp.contentType "text/html" then none
        else some received
      else some received

theorem stream_chunks_complete (cancelAt : Nat → Bool) :
    ∀ (cs : List Nat) (k acc r : Nat),
      stream_chunks cancelAt cs k acc = some r → r = acc + cs.sum := by
  intro cs
  induction cs with
  | nil =>
    intro k acc r h
    simp [stream_chunks] at h
    simp [h.symm]
  | cons c cs ih =>
    intro k acc r h
    by_cases hk : cancelAt k
    · simp [stream_chunks, hk] at h
    · simp only [stream_chunks, hk, if_neg, Bool.false_eq_true,
        not_false_eq_true, if_false] at h
      have := ih (k + 1) (acc + c) r h
      simp [this, List.sum_cons]
      omega

theorem stream_chunks_cancelled (cancelAt : Nat → Bool) :
    ∀ (cs : List Nat) (k acc : Nat),
      (∃ j, j < cs.length ∧ cancelAt (k + j) = true) →
      stream_chunks cancelAt cs k acc = none := by
  intro cs
  induction cs with
  | nil =>
    intro k acc h
    obtain ⟨j, hj, _⟩ := h
    simp at hj
  | cons c cs ih =>
    intro k acc h
    obtain ⟨j, hj, hcj⟩ := h
    by_cases hk : cancelAt k
    · simp [stream_chunks, hk]
    · rcases j with _ | j
      · rw [Nat.add_zero] at hcj
        exact absurd hcj hk
      · simp only [stream_chunks, hk, Bool.false_eq_true, if_false]
        refine ih (k + 1) (acc + c) ⟨j, ?_, ?_⟩
        · simpa using Nat.lt_of_succ_lt_succ hj
        · rw [show k + 1 + j = k + (j + 1) by omega]
          exact hcj

/-- C8: a streamed fetch whose final byte count is far below the expected
size (less than a tenth of it) and whose content-type indicates markup
returns no data, and a cancel signal observed during streaming returns no
data (no partial result) as well. -/
theorem claim_C8_disguised_failure_and_cancel (resp : HttpResponse)
    (sizeMB : Option ℚ) (cancelAt : Nat → Bool) :
    (10 * (resp.chunks.sum : ℚ) < total_size sizeMB resp →
      py_startswith resp.contentType "text/html" = true →
      download_url resp sizeMB cancelAt = none) ∧
    ((∃ k, k < resp.chunks.length ∧ cancelAt k = true) →
      download_url resp sizeMB cancelAt = none) := by
  constructor
  · intro hfar hhtml
    unfold download_url
    rcases hok : resp.ok with _ | _
    · simp
    · simp only [Bool.true_eq_false, if_false]
      rcases hs : stream_chunks cancelAt resp.chunks 0 0 with _ | received
      · rfl
      · have hr : received = resp.chunks.sum := by
          simpa using stream_chunks_complete cancelAt resp.chunks 0 0
            received hs
        have hnn : (0 : ℚ) ≤ (received : ℚ) := by positivity
        have hlt : (received : ℚ) * (1 / 10) <
            total_size sizeMB resp * (9 / 10) := by
          rw [hr] at hnn ⊢
          linarith
        simp [hhtml]
        linarith
  · intro hc
    unfold download_url
    rcases hok : resp.ok with _ | _
    · simp
    · simp only [Bool.true_eq_false, if_false]
      obtain ⟨k, hk, hck⟩ := hc
      rw [stream_chunks_cancelled cancelAt resp.chunks 0 0
        ⟨k, hk, by simpa using hck⟩]

def exResp : HttpResponse := ⟨true, 1000000, "text/html", [5, 5]⟩

/-- Witness for C8: 10 bytes received against an expected million-byte HTML
response is reported as no data, and an immediately-set cancel flag is too. -/
theorem claim_C8_disguised_failure_and_cancel_witness :
    download_url exResp none (fun _ => false) = none ∧
    download_url exResp none (fun _ => true) = none := by
  have h1 := claim_C8_disguised_failure_and_cancel exResp none (fun _ => false)
  have h2 := claim_C8_disguised_failure_and_cancel exResp none (fun _ => true)
  refine ⟨h1.1 ?_ ?_, h2.2 ⟨0, by decide, rfl⟩⟩
  · norm_num [exResp, total_size]
  · decide

end CwaBd

namespace CwaBd

/-! ## Lookup cache (`src/utils/threading_utils.py`, `cached_lookup`) -/

/-- A Python dict as an association list: `dict_get` is
`key in cache` / `cache[key]`. -/
def dict_get {K V : Type} [DecidableEq K] : List (K × V) → K → Option V
  | [], _ => none
  | (k, v) :: rest, key => if k = key then some v else dict_get rest key

/-- The assignment `cache[key] = result`: replace the binding if present, append
otherwise. -/
def dict_set {K V : Type} [DecidableEq K] :
    List (K × V) → K → V → List (K × V)
  | [], key, v => [(key, v)]
  | (k, w) :: rest, key, v =>
    if k = key then (k, v) :: rest else (k, w) :: dict_set rest key v

/-- The function `cached_lookup(cache, lock, key, loader)` from
`utils/threading_utils.py`: return a hit from the dict, else run the loader
and store its result.  The lock only serialises the dict accesses and is
elided in this sequential model; the pair returned is (result, cache after
the call). -/
def cached_lookup {K V : Type} [DecidableEq K] (cache : List (K × V))
    (key : K) (loader : Unit → V) : V × List (K × V) :=
  match dict_get cache key with
  | some v => (v, cache)
  | none =>
    let result := loader ()
    (result, dict_set cache key result)

theorem dict_set_fresh {K V : Type} [DecidableEq K] (key : K) (v : V) :
    ∀ cache : List (K × V), dict_get cache key = none →
      (dict_set cache key v).length = cache.length + 1 ∧
      dict_get (dict_set cache key v) key = some v := by
  intro cache
  induction cache with
  | nil => intro _; simp [dict_set, dict_get]
  | cons p rest ih =>
    intro h
    obtain ⟨k, w⟩ := p
    by_cases hk : k = key
    · rw [dict_get, if_pos hk] at h
      cases h
    · rw [dict_get, if_neg hk] at h
      obtain ⟨hlen, hget⟩ := ih h
      constructor
      · rw [dict_set, if_neg hk]
        simp [hlen]
      · rw [dict_set, if_neg hk, dict_get, if_neg hk]
        exact hget

set_option maxRecDepth 10000

/-- C9 (counterexample): one hundred lookups under distinct keys leave one
hundred retained result sets — `cached_lookup` has no TTL and no capacity
bound, so the claimed per-kind bound of about five entries is violated
(and there is no expiry time after which an entry stops being served). -/
theorem claim_C9_counterexample :
    ((List.range 100).foldl
        (fun c k => (cached_lookup c k (fun _ => k)).2)
        ([] : List (Nat × Nat))).length = 100 ∧ 100 > 5 := by
  constructor
  · decide
  · decide

/-- C9 (amended): `cached_lookup` creates an entry on first miss and never
removes one — a hit returns the stored value with the cache unchanged, a
miss stores the loader's result under the key and grows the cache by one,
and the cache size never decreases: there is no TTL expiry and no capacity
eviction, so the number of retained result sets is unbounded. -/
theorem claim_C9_cache_unbounded_amended {K V : Type} [DecidableEq K]
    (cache : List (K × V)) (key : K) (loader : Unit → V) :
    cache.length ≤ (cached_lookup cache key loader).2.length ∧
    (∀ v, dict_get cache key = some v →
      cached_lookup cache key loader = (v, cache)) ∧
    (dict_get cache key = none →
      (cached_lookup cache key loader).2.length = cache.length + 1 ∧
      dict_get (cached_lookup cache key loader).2 key =
        some (loader ())) := by
  rcases h : dict_get cache key with _ | v
  · obtain ⟨hlen, hget⟩ := dict_set_fresh key (loader ()) cache h
    refine ⟨?_, ?_, ?_⟩
    · simp [cached_lookup, h, hlen]
    · intro v hv
      simp at hv
    · intro _
      simp [cached_lookup, h, hlen, hget]
  · refine ⟨?_, ?_, ?_⟩
    · simp [cached_lookup, h]
    · intro w hw
      have hvw : v = w := by simpa using hw
      simp [cached_lookup, h, hvw]
    · intro hnone
      simp at hnone

/-- Witness for the amended C9: a miss on key 3 grows the cache from one
entry to two and stores the loaded value. -/
theorem claim_C9_cache_unbounded_amended_witness :
    (cached_lookup [(1, 2)] 3 (fun _ => 7)).2.length = 2 ∧
    dict_get (cached_lookup [(1, 2)] 3 (fun _ => 7)).2 3 = some 7 := by
  have h := (claim_C9_cache_unbounded_amended [(1, 2)] 3 (fun _ => 7)).2.2
    (by decide)
  exact ⟨h.1, h.2⟩

end CwaBd
